import Mathlib

/-!
Shallow embedding of `packages/ui/src/components/modal.tsx` from the ruru-ui
repository, together with proofs of the specification claims about the modal
component: the provider state, the `useModal` hook, escape-key handling, the
backdrop click handler, the action-button click wrapper, the conditional
mounting of the overlay, and the lifecycle of the document keydown listener.
-/

namespace RuruUI

/-- Embedding of the `openModal` closure created by `ModalProvider`
(`useCallback(() => setIsOpen(true), [])`), as a transformer of the
provider state boolean. -/
def openModal : Bool → Bool := fun _ => true

/-- Embedding of the `closeModal` closure created by `ModalProvider`
(`useCallback(() => setIsOpen(false), [])`), as a transformer of the
provider state boolean. -/
def closeModal : Bool → Bool := fun _ => false

/-- Embedding of the context value type `ModalContextProps`: the boolean
`isOpen` plus the two mutator closures, each a transformer of the provider
state boolean. -/
structure ModalContextProps where
  isOpen : Bool
  openModal : Bool → Bool
  closeModal : Bool → Bool

/-- The context value supplied by `ModalProvider`:
`value = (isOpen, openModal, closeModal)` for the current state `isOpen`. -/
def ModalProvider.contextValue (isOpen : Bool) : ModalContextProps :=
  { isOpen := isOpen, openModal := openModal, closeModal := closeModal }

/-- Embedding of the `useModal` hook. Its argument is the value read from
`ModalContext`, which is `none` exactly when no enclosing `ModalProvider`
supplied a value (the context default is `undefined`). The hook throws
`Error("useModal must be used within a ModalProvider")` in that case and
returns the context value otherwise. -/
def useModal : Option ModalContextProps → Except String ModalContextProps
  | none => Except.error "useModal must be used within a ModalProvider"
  | some ctx => Except.ok ctx

/-- Embedding of the `handleEscape` keydown handler defined inside `Modal`:
on a keydown event it calls `closeModal()` when `event.key === "Escape"` and
does nothing otherwise. -/
def handleEscape (key : String) (isOpen : Bool) : Bool :=
  if key = "Escape" then closeModal isOpen else isOpen

/-- A document-level keydown dispatch. The `useEffect` in `Modal` attaches
`handleEscape` to the document exactly while `isOpen` is true, so the handler
runs only in that case; while closed no handler is attached and the event
leaves the state untouched. -/
def dispatchKeydown (isOpen : Bool) (key : String) : Bool :=
  if isOpen then handleEscape key isOpen else isOpen

/-- Embedding of the `handleClick` of `Modal.Trigger`: it calls `openModal()`
(the optional user `onClick` runs afterwards and does not touch the
provider boolean). -/
def Trigger.handleClick (isOpen : Bool) : Bool := openModal isOpen

/-- The events that can reach one provider instance: an explicit
`openModal` call, an explicit `closeModal` call, a click on `Modal.Trigger`,
and a document keydown with a given key. -/
inductive MEvent where
  | openCall : MEvent
  | closeCall : MEvent
  | triggerClick : MEvent
  | keydown : String → MEvent
deriving DecidableEq

/-- One step of the provider state boolean under an event, assembled from
the embedded closures and handlers above. -/
def step (isOpen : Bool) : MEvent → Bool
  | MEvent.openCall => openModal isOpen
  | MEvent.closeCall => closeModal isOpen
  | MEvent.triggerClick => Trigger.handleClick isOpen
  | MEvent.keydown k => dispatchKeydown isOpen k

/-- The provider state boolean after a sequence of events, starting from
the initial `useState(false)`. -/
def run (events : List MEvent) : Bool := events.foldl step false

/-- An event that opens the modal: a trigger click or an explicit
`openModal` call. -/
def isOpenEvent : MEvent → Bool
  | MEvent.openCall => true
  | MEvent.triggerClick => true
  | _ => false

/-- An event that closes a visible modal: an explicit `closeModal` call or
an escape keydown. -/
def isCloseEvent : MEvent → Bool
  | MEvent.closeCall => true
  | MEvent.keydown k => k == "Escape"
  | _ => false

/-- Embedding of the `onClick` prop of the backdrop in `Modal`:
`onClick={onClickOutside ? onClickOutside : closeModal}`. A supplied
function is always truthy, so the supplied handler is installed when
present and `closeModal` otherwise. -/
def backdropOnClick (onClickOutside : Option (Bool → Bool)) : Bool → Bool :=
  match onClickOutside with
  | some handler => handler
  | none => closeModal

/-- Observable events during a `Modal.Action` click: a step performed by the
caller-supplied handler, or an invocation of `closeModal`. -/
inductive AEv where
  | handlerStep : Nat → AEv
  | close : AEv
deriving DecidableEq

/-- A caller-supplied `onClick` handler for `Modal.Action`, modelled by the
events it emits while running and whether its returned promise resolves
(`resolves = false` covers both a rejecting promise and a thrown
exception, which inside the `async` wrapper become the same rejection). -/
structure Handler where
  events : List AEv
  resolves : Bool
deriving DecidableEq

/-- Embedding of the `handleClick` of `Modal.Action`:
`async () => { if (onClick) { await onClick(); } closeModal(); }`.
The result is the sequence of observable events: with no handler,
`closeModal` runs directly; with a handler, the events of the handler happen
first and `closeModal` runs afterwards exactly when the awaited promise
resolved (a rejection propagates out before `closeModal()` is reached). -/
def Modal.Action.handleClick : Option Handler → List AEv
  | none => [AEv.close]
  | some h => h.events ++ if h.resolves then [AEv.close] else []

/-- Effect of a trace of action events on the provider state boolean:
each `close` event applies `closeModal`, handler steps do not touch the
provider boolean. -/
def applyTrace (isOpen : Bool) (trace : List AEv) : Bool :=
  trace.foldl
    (fun s e =>
      match e with
      | AEv.close => closeModal s
      | AEv.handlerStep _ => s)
    isOpen

/-- Embedding of the props accepted by `Modal.Action` (the fields relevant
to its behaviour: `fullWidth`, `children`, and the optional `onClick`). -/
structure ModalActionProps where
  fullWidth : Bool := false
  children : List Nat := []
  onClick : Option Handler := none
deriving DecidableEq

/-- The `closeModal` closure of the context, viewed as a `Modal.Action` handler:
running it invokes `closeModal` and it returns synchronously (a resolved
promise once wrapped by `await`). -/
def closeModalHandler : Handler := { events := [AEv.close], resolves := true }

/-- Embedding of `Modal.Close`:
`<Modal.Action {...props} onClick={useModal().closeModal}>` spreads the
props of the caller first and then overrides `onClick` with the `closeModal`
closure taken from the context. -/
def Modal.Close (props : ModalActionProps) : ModalActionProps :=
  { props with onClick := some closeModalHandler }

/-- Embedding of the JSX returned by `Modal`:
`{isOpen && <motion.div ...>{children}</motion.div>}` inside
`AnimatePresence` mounts the overlay with its children exactly when
`isOpen` is true and mounts nothing otherwise. Children are modelled
abstractly by a list of node identifiers. -/
def Modal.renderOverlay (isOpen : Bool) (children : List Nat) : Option (List Nat) :=
  if isOpen then some children else none

/-- The document/effect state for the `useEffect` of `Modal`: the identifiers of
the keydown handlers currently registered on the document, a counter
supplying a fresh identifier for the `handleEscape` closure created by each
effect run, and the identifier created by the most recent run (the one the
pending cleanup will remove). -/
structure ModalFx where
  doc : List Nat
  gen : Nat
  cur : Option Nat
deriving DecidableEq

/-- The state before the first effect of the component runs: no listener is
registered and no cleanup is pending. -/
def ModalFx.init : ModalFx := { doc := [], gen := 0, cur := none }

/-- The cleanup returned by the effect:
`() => document.removeEventListener("keydown", handleEscape)` for the
`handleEscape` closure of that effect run. Removing an identifier that is
not registered is a no-op, as for `removeEventListener`. -/
def cleanupEffect (s : ModalFx) : ModalFx :=
  match s.cur with
  | none => s
  | some id => { s with doc := s.doc.erase id, cur := none }

/-- One run of the effect body: a fresh `handleEscape` closure is created;
if `isOpen` it is added to the keydown listeners of the document, otherwise
`removeEventListener` is called with it (a no-op, since this fresh closure
was never added). -/
def runModalEffect (s : ModalFx) (isOpen : Bool) : ModalFx :=
  { doc := if isOpen then s.doc ++ [s.gen] else s.doc.erase s.gen
    gen := s.gen + 1
    cur := some s.gen }

/-- One commit of a render with dependency value `isOpen`: the previous
cleanup of the previous effect runs first (a no-op on the very first commit), then the
effect body runs. -/
def renderCycle (s : ModalFx) (isOpen : Bool) : ModalFx :=
  runModalEffect (cleanupEffect s) isOpen

/-- Unmounting the component runs the pending cleanup. -/
def unmountModal (s : ModalFx) : ModalFx := cleanupEffect s

/-- The effect state after mounting `Modal` and committing the given
sequence of `isOpen` values. -/
def mountAndRender (isOpens : List Bool) : ModalFx :=
  isOpens.foldl renderCycle ModalFx.init

/-- Invariant of the effect state: either no listener is registered, or
exactly the listener created by the most recent effect run is. -/
def FxInv (s : ModalFx) : Prop :=
  s.doc = [] ∨ ∃ id, s.cur = some id ∧ s.doc = [id]

lemma cleanupEffect_doc (s : ModalFx) (h : FxInv s) : (cleanupEffect s).doc = [] := by
  rcases h with h | ⟨id, hcur, hdoc⟩
  · unfold cleanupEffect
    cases hc : s.cur <;> simp [h, hc]
  · simp [cleanupEffect, hcur, hdoc]

lemma renderCycle_doc (s : ModalFx) (b : Bool) (h : FxInv s) :
    (renderCycle s b).doc = if b then [(cleanupEffect s).gen] else [] := by
  have hd := cleanupEffect_doc s h
  cases b <;> simp [renderCycle, runModalEffect, hd]

lemma renderCycle_inv (s : ModalFx) (b : Bool) (h : FxInv s) : FxInv (renderCycle s b) := by
  have hd := renderCycle_doc s b h
  cases b with
  | false => exact Or.inl (by simpa using hd)
  | true =>
      refine Or.inr ⟨(cleanupEffect s).gen, ?_, by simpa using hd⟩
      simp [renderCycle, runModalEffect]

lemma foldl_renderCycle_inv (l : List Bool) (s : ModalFx) (h : FxInv s) :
    FxInv (l.foldl renderCycle s) := by
  induction l generalizing s with
  | nil => exact h
  | cons b l ih => exact ih _ (renderCycle_inv s b h)

lemma mountAndRender_inv (l : List Bool) : FxInv (mountAndRender l) :=
  foldl_renderCycle_inv l ModalFx.init (Or.inl rfl)

lemma step_true_iff (b : Bool) (e : MEvent) :
    step b e = true ↔ (isOpenEvent e = true ∨ (b = true ∧ isCloseEvent e = false)) := by
  cases e with
  | openCall => simp [step, openModal, isOpenEvent, isCloseEvent]
  | closeCall => simp [step, closeModal, isOpenEvent, isCloseEvent]
  | triggerClick => simp [step, Trigger.handleClick, openModal, isOpenEvent, isCloseEvent]
  | keydown k =>
      by_cases hk : k = "Escape" <;>
        cases b <;>
          simp [step, dispatchKeydown, handleEscape, closeModal, isOpenEvent, isCloseEvent, hk]

lemma split_cons_iff (ev : MEvent) (tr : List MEvent) :
    (∃ p e q, ev :: tr = p ++ e :: q ∧ isOpenEvent e = true ∧ ∀ x ∈ q, isCloseEvent x = false)
      ↔ ((isOpenEvent ev = true ∧ ∀ x ∈ tr, isCloseEvent x = false)
          ∨ ∃ p e q, tr = p ++ e :: q ∧ isOpenEvent e = true ∧
              ∀ x ∈ q, isCloseEvent x = false) := by
  constructor
  · rintro ⟨p, e, q, hpq, hopen, hq⟩
    cases p with
    | nil =>
        rw [List.nil_append] at hpq
        cases hpq
        exact Or.inl ⟨hopen, hq⟩
    | cons a p =>
        rw [List.cons_append] at hpq
        cases hpq
        exact Or.inr ⟨p, e, q, rfl, hopen, hq⟩
  · rintro (⟨hopen, htr⟩ | ⟨p, e, q, hpq, hopen, hq⟩)
    · exact ⟨[], ev, tr, rfl, hopen, htr⟩
    · exact ⟨ev :: p, e, q, by rw [hpq, List.cons_append], hopen, hq⟩

lemma foldl_step_true_iff (tr : List MEvent) :
    ∀ b : Bool,
      tr.foldl step b = true ↔
        ((∃ p e q, tr = p ++ e :: q ∧ isOpenEvent e = true ∧
            ∀ x ∈ q, isCloseEvent x = false)
          ∨ (b = true ∧ ∀ x ∈ tr, isCloseEvent x = false)) := by
  induction tr with
  | nil =>
      intro b
      constructor
      · intro h
        exact Or.inr ⟨h, by simp⟩
      · rintro (⟨p, e, q, hpq, -, -⟩ | ⟨hb, -⟩)
        · cases p <;> simp_all
        · simpa using hb
  | cons ev tr ih =>
      intro b
      rw [List.foldl_cons, ih (step b ev), step_true_iff, split_cons_iff,
        List.forall_mem_cons]
      generalize (∃ p e q, tr = p ++ e :: q ∧ isOpenEvent e = true ∧
        ∀ x ∈ q, isCloseEvent x = false) = E
      tauto

lemma applyTrace_handlerSteps (b : Bool) (steps : List Nat) :
    applyTrace b (steps.map AEv.handlerStep) = b := by
  induction steps with
  | nil => rfl
  | cons n steps ih => simpa [applyTrace] using ih

/-- Claim C1: a call of `useModal` outside an enclosing `ModalProvider`
(context value absent) fails fast by throwing the error with message
"useModal must be used within a ModalProvider"; inside a provider it returns
the context value without error. -/
theorem useModal_outside_provider_throws :
    useModal none = Except.error "useModal must be used within a ModalProvider"
      ∧ ∀ ctx : ModalContextProps, useModal (some ctx) = Except.ok ctx :=
  ⟨rfl, fun _ => rfl⟩

/-- Claim C2: for every sequence of openModal/closeModal/trigger/keydown
events on one provider instance, the shared `isOpen` flag is true exactly
when the trace ends in an open event (trigger click or explicit `openModal`
call) followed by no close event (`closeModal` call or escape keydown, the
latter necessarily pressed while visible there); in particular the flag is
false from mount until the first open event. -/
theorem isOpen_iff_open_event_without_later_close (tr : List MEvent) :
    run tr = true ↔
      ∃ p e q, tr = p ++ e :: q ∧ isOpenEvent e = true ∧
        ∀ x ∈ q, isCloseEvent x = false := by
  unfold run
  rw [foldl_step_true_iff]
  simp

/-- Claim C3: a keydown with key "Escape" dispatched while `isOpen` is true
invokes `closeModal`, so `isOpen` becomes false; dispatched while `isOpen`
is false (no handler attached) it leaves the state unchanged. -/
theorem escape_closes_only_visible_modal :
    dispatchKeydown true "Escape" = closeModal true
      ∧ closeModal true = false
      ∧ ∀ k : String, dispatchKeydown false k = false := by
  refine ⟨?_, rfl, fun _ => rfl⟩
  simp [dispatchKeydown, handleEscape]

/-- Claim C4: the click handler installed on the backdrop layer is the
default `closeModal` when the `onClickOutside` prop is absent, and is
exactly the supplied handler (so the default close does not run) when the
prop is present. -/
theorem backdrop_click_handler_selection :
    backdropOnClick none = closeModal
      ∧ ∀ handler : Bool → Bool, backdropOnClick (some handler) = handler :=
  ⟨rfl, fun _ => rfl⟩

/-- Claim C5: with no `onClick` handler supplied, a `Modal.Action` click
invokes `closeModal` directly; with a handler whose returned promise
resolves, `closeModal` is invoked only after all events of the handler, that
is, after the awaited promise has resolved. -/
theorem action_click_awaits_handler :
    Modal.Action.handleClick none = [AEv.close]
      ∧ ∀ evs : List AEv,
          Modal.Action.handleClick (some ⟨evs, true⟩) = evs ++ [AEv.close] := by
  refine ⟨rfl, fun evs => ?_⟩
  simp [Modal.Action.handleClick]

/-- Claim C6: after any sequence of committed renders whose last dependency
value is `b`, exactly one document keydown listener is registered when `b`
is true and none when `b` is false; and running the unmount cleanup after
any sequence of renders leaves no listener registered. -/
theorem keydown_listener_lifecycle (rs : List Bool) (b : Bool) :
    (mountAndRender (rs ++ [b])).doc.length = (if b then 1 else 0)
      ∧ (unmountModal (mountAndRender rs)).doc = [] := by
  have hinv := mountAndRender_inv rs
  constructor
  · have hsplit : mountAndRender (rs ++ [b]) = renderCycle (mountAndRender rs) b := by
      unfold mountAndRender
      rw [List.foldl_append]
      rfl
    rw [hsplit, renderCycle_doc _ _ hinv]
    cases b <;> simp
  · exact cleanupEffect_doc _ hinv

/-- Claim C7: the overlay and its children are mounted if and only if
`isOpen` is true; when `isOpen` is false nothing of the modal layer is
mounted. -/
theorem overlay_mounted_iff_isOpen (children : List Nat) :
    (∀ b : Bool, (Modal.renderOverlay b children).isSome = b)
      ∧ Modal.renderOverlay true children = some children
      ∧ Modal.renderOverlay false children = none := by
  refine ⟨fun b => ?_, rfl, rfl⟩
  cases b <;> rfl

/-- Claim C8: the provider state is a single boolean with two mutator
closures that flip it: from every prior state, `openModal` followed by
`closeModal` yields closed, and either closure applied to the opposite
state flips the boolean. -/
theorem provider_closures_flip_state (b : Bool) :
    closeModal (openModal b) = false
      ∧ openModal (closeModal b) = true
      ∧ openModal false = true
      ∧ closeModal true = false :=
  ⟨rfl, rfl, rfl, rfl⟩

/-- Claim C9: when the supplied `onClick` handler throws or its promise
rejects, the `Modal.Action` click wrapper does not invoke `closeModal`: the
observable trace is exactly the events of the handler, contains no
`closeModal` invocation, and leaves the open state of the modal unchanged. -/
theorem action_failure_leaves_state_unchanged (b : Bool) (steps : List Nat) :
    Modal.Action.handleClick (some ⟨steps.map AEv.handlerStep, false⟩)
        = steps.map AEv.handlerStep
      ∧ AEv.close ∉ Modal.Action.handleClick (some ⟨steps.map AEv.handlerStep, false⟩)
      ∧ applyTrace b
          (Modal.Action.handleClick (some ⟨steps.map AEv.handlerStep, false⟩)) = b := by
  refine ⟨by simp [Modal.Action.handleClick], ?_, ?_⟩
  · simp [Modal.Action.handleClick]
  · simp only [Modal.Action.handleClick, if_neg, Bool.false_eq_true,
      not_false_eq_true, List.append_nil]
    exact applyTrace_handlerSteps b steps

/-- Claim C10: `Modal.Close` discards any caller-supplied `onClick` and
always forwards the `closeModal` closure as the `onClick` of the underlying
`Modal.Action`, so clicking it invokes only `closeModal` and never the
caller handler. -/
theorem close_discards_caller_onClick (props : ModalActionProps) (h : Option Handler) :
    (Modal.Close props).onClick = some closeModalHandler
      ∧ Modal.Close { props with onClick := h } = Modal.Close props
      ∧ Modal.Action.handleClick (Modal.Close props).onClick = [AEv.close, AEv.close]
      ∧ ∀ e ∈ Modal.Action.handleClick (Modal.Close props).onClick, e = AEv.close := by
  refine ⟨rfl, rfl, rfl, ?_⟩
  intro e he
  simpa [Modal.Action.handleClick, Modal.Close, closeModalHandler] using he

end RuruUI
